import Mathlib

/-
Verification of the nanobloc HTTP API layer (modules/api) against its
specification.  The Rust sources are shallowly embedded below:

* `cors.rs`      → `AllowOrigin`, `AllowOrigin.from_str`, `AllowOrigin.serialize`,
                   `AllowOrigin.deserialize`
* `error.rs`     → `ErrorBody`, `Error`, the canonical constructors and builder
                   methods, `Error.parse`
* `end/actix.rs` → `Error.error_response`, `json_response` (deprecation warning),
                   `extract_query`, per-endpoint `dispatch`, `default_api_error`,
                   `error_handlers`
* `manager.rs`   → `with_retries`, `start_servers`, `run_inner`

Modelling conventions: HTTP status codes are `Nat`; machine strings are Lean
`String`; `serde_json` values are modelled structurally (an `ErrorBody`
serializes to an ordered field list, rendered to text by `renderObj`); an
`OffsetDateTime` is represented by its formatted rendering (the `time` crate's
formatting is external code); actix extractors (`Query::extract`,
`Json::from_request`) are external collaborators and enter the model as the
`Except`-valued result they produce for the request at hand.
-/

namespace Nanobloc

set_option maxRecDepth 8000

instance {ε α : Type} [DecidableEq ε] [DecidableEq α] : DecidableEq (Except ε α) := fun a b => by
  cases a <;> cases b
  case error.error e1 e2 => exact decidable_of_iff (e1 = e2) (by simp)
  case error.ok _ _ => exact Decidable.isFalse (by simp)
  case ok.error _ _ => exact Decidable.isFalse (by simp)
  case ok.ok x y => exact decidable_of_iff (x = y) (by simp)

/-! ### HTTP status codes (actix_web::http::StatusCode) -/

def HttpStatusCode.OK : Nat := 200

def HttpStatusCode.MOVED_PERMANENTLY : Nat := 301

def HttpStatusCode.BAD_REQUEST : Nat := 400

def HttpStatusCode.FORBIDDEN : Nat := 403

def HttpStatusCode.NOT_FOUND : Nat := 404

def HttpStatusCode.INTERNAL_SERVER_ERROR : Nat := 500

/-! ### Error model (error.rs) -/

/-- One field value of the serialized `ErrorBody` JSON object: `serde_json`
only ever produces strings (the four text fields) and numbers (`error_code`)
for this type. -/
inductive JsonField where
  | str (s : String)
  | num (n : Nat)
  deriving DecidableEq

/-- Embeds `ErrorBody` (error.rs lines 27-40).  `docs_uri` is serialized under
the key `"type"`; every field is `#[serde(default)]` and skipped on
serialization when empty/`None`. -/
structure ErrorBody where
  docs_uri : String := ""
  title : String := ""
  detail : String := ""
  source : String := ""
  error_code : Option Nat := none
  deriving DecidableEq

/-- Serialization of `ErrorBody` as the ordered field list of the JSON object
`serde_json` produces: declaration order, each field skipped when empty
(`skip_serializing_if`). -/
def ErrorBody.toJson (b : ErrorBody) : List (String × JsonField) :=
  (if b.docs_uri = "" then [] else [("type", JsonField.str b.docs_uri)])
    ++ (if b.title = "" then [] else [("title", JsonField.str b.title)])
    ++ (if b.detail = "" then [] else [("detail", JsonField.str b.detail)])
    ++ (if b.source = "" then [] else [("source", JsonField.str b.source)])
    ++ (match b.error_code with
        | none => []
        | some c => [("error_code", JsonField.num c)])

/-- Every serialized body field is empty or absent (the condition under which
`serde_json::to_value` gives the empty object). -/
def ErrorBody.isEmptyAll (b : ErrorBody) : Prop :=
  b.docs_uri = "" ∧ b.title = "" ∧ b.detail = "" ∧ b.source = "" ∧
    b.error_code = none

instance (b : ErrorBody) : Decidable b.isEmptyAll := by
  unfold ErrorBody.isEmptyAll; infer_instance

/-- Renders one field the way `serde_json::to_string` does (no spaces). -/
def renderField : String × JsonField → String
  | (k, JsonField.str s) => "\"" ++ k ++ "\":\"" ++ s ++ "\""
  | (k, JsonField.num n) => "\"" ++ k ++ "\":" ++ toString n

/-- Renders a JSON object the way `serde_json::to_string` does. -/
def renderObj (fields : List (String × JsonField)) : String :=
  "\x7b" ++ String.intercalate "," (fields.map renderField) ++ "\x7d"

/-- Embeds `Error` (error.rs lines 9-15): HTTP status, structured body and
extra headers. -/
structure Error where
  http_code : Nat
  body : ErrorBody := {}
  headers : List (String × String) := []
  deriving DecidableEq

def Error.new (http_code : Nat) : Error :=
  { http_code := http_code, body := {}, headers := [] }

def Error.bad_request : Error := Error.new HttpStatusCode.BAD_REQUEST

def Error.forbidden : Error := Error.new HttpStatusCode.FORBIDDEN

def Error.not_found : Error := Error.new HttpStatusCode.NOT_FOUND

def Error.internal (cause : String) : Error :=
  { Error.new HttpStatusCode.INTERNAL_SERVER_ERROR with
      body := { detail := cause } }

def Error.docs_uri (e : Error) (docs_uri : String) : Error :=
  { e with body := { e.body with docs_uri := docs_uri } }

def Error.title (e : Error) (title : String) : Error :=
  { e with body := { e.body with title := title } }

def Error.detail (e : Error) (detail : String) : Error :=
  { e with body := { e.body with detail := detail } }

def Error.source (e : Error) (source : String) : Error :=
  { e with body := { e.body with source := source } }

def Error.error_code (e : Error) (error_code : Nat) : Error :=
  { e with body := { e.body with error_code := some error_code } }

/-- Looks a field up by name in a serialized object (first match). -/
def lookupField (k : String) : List (String × JsonField) → Option JsonField
  | [] => none
  | (k2, v) :: rest => if k2 = k then some v else lookupField k rest

/-- Reads an optional string field the way serde's derived `Deserialize` does
under `#[serde(default)]`: absent → default `""`, wrong type → error. -/
def getStrField (fields : List (String × JsonField)) (k : String) :
    Except String String :=
  match lookupField k fields with
  | none => Except.ok ""
  | some (JsonField.str s) => Except.ok s
  | some (JsonField.num _) => Except.error ("invalid type for field " ++ k)

/-- Reads the optional numeric `error_code` field: absent → `none`. -/
def getNumField (fields : List (String × JsonField)) (k : String) :
    Except String (Option Nat) :=
  match lookupField k fields with
  | none => Except.ok none
  | some (JsonField.num n) => Except.ok (some n)
  | some (JsonField.str _) => Except.error ("invalid type for field " ++ k)

/-- Derived `Deserialize` of `ErrorBody` at the parsed-JSON level. -/
def decodeErrorBody (fields : List (String × JsonField)) :
    Except String ErrorBody := do
  let docs_uri ← getStrField fields "type"
  let title ← getStrField fields "title"
  let detail ← getStrField fields "detail"
  let source ← getStrField fields "source"
  let error_code ← getNumField fields "error_code"
  Except.ok { docs_uri := docs_uri, title := title, detail := detail,
              source := source, error_code := error_code }

/-- Embeds `Error::parse` (error.rs lines 104-119).  The `&str` raw body is
modelled at the parsed-JSON level (`serde_json::from_str` of the text
`serde_json::to_string` produced is the identity): `none` is the empty string,
`some fields` a JSON object text. -/
def Error.parse (http_code : Nat)
    (body : Option (List (String × JsonField))) : Except String Error :=
  match body with
  | none => Except.ok { http_code := http_code, body := {}, headers := [] }
  | some fields =>
      (decodeErrorBody fields).map fun b =>
        { http_code := http_code, body := b, headers := [] }

/-- The wire body of an `Error` at the parsed-JSON level: `none` exactly when
`error_response` sends the zero-length body. -/
def Error.wire_body (e : Error) : Option (List (String × JsonField)) :=
  if e.body.toJson = [] then none else some e.body.toJson

/-! ### Wire responses (end/actix.rs) -/

/-- A concrete HTTP response: status, header list in insertion order, body
text. -/
structure HttpResponse where
  status : Nat
  headers : List (String × String)
  body : String
  deriving DecidableEq

/-- Embeds `ResponseError::error_response` for `ApiError` (end/actix.rs lines
98-117): the body is zero-length when `serde_json::to_value(&self.body)` is
the empty object, otherwise the full JSON text; the `Content-Type:
application/problem+json` header comes first and the error's own headers are
appended after it. -/
def Error.error_response (e : Error) : HttpResponse :=
  { status := e.http_code
    headers := ("Content-Type", "application/problem+json") :: e.headers
    body := if e.body.toJson = [] then "" else renderObj e.body.toJson }

/-! ### Endpoint contract (withs.rs) and dispatch (end/actix.rs) -/

/-- Embeds `EndpointMutability` (lib.rs lines 18-23). -/
inductive EndpointMutability where
  | Mutable
  | Immutable
  deriving DecidableEq

/-- Embeds `Actuality` (withs.rs lines 17-24).  `discontinued_on` holds the
formatted rendering `date.format(&date_format).unwrap_or_default()` of the
optional `OffsetDateTime` (the `time` crate's formatting is external code). -/
inductive Actuality where
  | Actual
  | Deprecated (discontinued_on : Option String) (description : Option String)

/-- Embeds the `expiration_note` match of `json_response` (end/actix.rs lines
127-139). -/
def expiration_note : Option String → String
  | some formattedDate => "The old API is maintained until " ++ formattedDate ++ "."
  | none => "Currently there is no specific date for disabling this endpoint."

/-- Embeds `create_warning_header` (end/actix.rs lines 160-162). -/
def create_warning_header (warning_text : String) : String :=
  "299 - \"" ++ warning_text ++ "\""

/-- The full warning text `json_response` builds for a deprecated endpoint
(end/actix.rs lines 141-150): the fixed first sentence, the expiration note,
then the optional additional-information sentence. -/
def deprecation_warning_text
    (discontinued_on description : Option String) : String :=
  let base :=
    "Deprecated API: This endpoint is deprecated, see the service documentation to find an alternative. "
      ++ expiration_note discontinued_on
  match description with
  | some d => base ++ " Additional information: " ++ d ++ "."
  | none => base

/-- Embeds `json_response` (end/actix.rs lines 119-158): HTTP 200 with the
serialized value as body (`json_value` stands for the `serde_json` rendering
of the handler's `Serialize` output); a deprecated actuality prepends the
`Warning` header; `.json(..)` sets `Content-Type: application/json`. -/
def json_response (actuality : Actuality) (json_value : String) : HttpResponse :=
  match actuality with
  | Actuality.Actual =>
      { status := HttpStatusCode.OK
        headers := [("Content-Type", "application/json")]
        body := json_value }
  | Actuality.Deprecated discontinued_on description =>
      { status := HttpStatusCode.OK
        headers :=
          [("Warning",
            create_warning_header
              (deprecation_warning_text discontinued_on description)),
           ("Content-Type", "application/json")]
        body := json_value }

/-- Embeds `extract_query` (end/actix.rs lines 173-200).  `query_extract` and
`json_extract` are the results the external actix extractors
(`Query::extract`, `Json::from_request`) produce for this request; the error
branch wraps the extractor's message exactly as the source does. -/
def extract_query {Q : Type} (mutability : EndpointMutability)
    (query_extract json_extract : Except String Q) : Except Error Q :=
  match mutability with
  | EndpointMutability.Immutable =>
      query_extract.mapError fun e =>
        (Error.bad_request.title "Query parse error").detail e
  | EndpointMutability.Mutable =>
      json_extract.mapError fun e =>
        (Error.bad_request.title "JSON body parse error").detail e

/-- Embeds the per-endpoint request handler built by
`From<NamedWith<..>> for RequestHandler` (end/actix.rs lines 202-231):
extract the query (an error short-circuits via `?` into
`error_response`), run the handler (same short-circuit), then
`json_response`.  The handler's `Serialize` output enters the model already
rendered to its JSON text. -/
def dispatch {Q : Type} (mutability : EndpointMutability)
    (actuality : Actuality) (query_extract json_extract : Except String Q)
    (handler : Q → Except Error String) : HttpResponse :=
  match extract_query mutability query_extract json_extract with
  | Except.error e => e.error_response
  | Except.ok q =>
      match handler q with
      | Except.error e => e.error_response
      | Except.ok v => json_response actuality v

/-! ### Process-wide catch-all error handlers (end/actix.rs lines 255-297) -/

/-- Embeds `actix_web::body::BodySize` as matched by `default_api_error`. -/
inductive BodySize where
  | none
  | sized (n : Nat)
  | stream
  deriving DecidableEq

/-- The part of a `ServiceResponse` that `error_handlers` inspects: its
status, its body size, and the request's URI path. -/
structure ServiceResponse where
  status : Nat
  bodySize : BodySize
  path : String
  deriving DecidableEq

/-- Outcome of an installed error handler: the original response untouched,
or a replacement built from an `Error`. -/
inductive HandledResponse where
  | passthrough (res : ServiceResponse)
  | replaced (res : HttpResponse)
  deriving DecidableEq

/-- Embeds `ErrorHandlersEx::default_api_error` (end/actix.rs lines 263-282):
the handler's error replaces the response only when the existing body size is
`None`, `Sized(0)` or `Stream`; any other sized body passes through. -/
def default_api_error (handler : ServiceResponse → Error)
    (res : ServiceResponse) : HandledResponse :=
  match res.bodySize with
  | BodySize.none => HandledResponse.replaced (handler res).error_response
  | BodySize.sized 0 => HandledResponse.replaced (handler res).error_response
  | BodySize.stream => HandledResponse.replaced (handler res).error_response
  | BodySize.sized _ => HandledResponse.passthrough res

/-- The 404 handler installed by `error_handlers` (end/actix.rs lines
286-293). -/
def not_found_handler (res : ServiceResponse) : Error :=
  (Error.not_found.title "Method not found").detail
    ("API endpoint `" ++ res.path ++ "` doesn't exist")

/-- The 400 handler installed by `error_handlers` (end/actix.rs lines
294-296). -/
def bad_request_handler (_res : ServiceResponse) : Error :=
  Error.bad_request.title "Bad request"

/-- The status → handler table `error_handlers` installs. -/
def error_handlers (status : Nat) : Option (ServiceResponse → Error) :=
  if status = HttpStatusCode.NOT_FOUND then some not_found_handler
  else if status = HttpStatusCode.BAD_REQUEST then some bad_request_handler
  else none

/-! ### CORS policy (cors.rs) -/

/-- Embeds `AllowOrigin` (cors.rs lines 5-10). -/
inductive AllowOrigin where
  | Any
  | Whitelist (hosts : List String)
  deriving DecidableEq

/-- Models Rust's `str::split(sep)` over the character list of a string: the
pieces between occurrences of `sep`, keeping empty pieces (splitting the
empty string yields one empty piece, as in Rust). -/
def splitOnChar (sep : Char) : List Char → List (List Char)
  | [] => [[]]
  | c :: rest =>
      if c = sep then [] :: splitOnChar sep rest
      else
        match splitOnChar sep rest with
        | [] => [[c]]
        | piece :: pieces => (c :: piece) :: pieces

/-- Models Rust's `str::trim` (leading and trailing whitespace removed; the
inputs at hand only carry ASCII whitespace, where the two languages agree). -/
def trimChars (cs : List Char) : List Char :=
  (((cs.dropWhile Char.isWhitespace).reverse.dropWhile Char.isWhitespace).reverse)

/-- Embeds `FromStr for AllowOrigin` (cors.rs lines 68-87): `"*"` → `Any`;
otherwise split on `,`, trim each piece, drop empties; an empty remaining
list is an error. -/
def AllowOrigin.from_str (s : String) : Except String AllowOrigin :=
  if s = "*" then Except.ok AllowOrigin.Any
  else
    let v := (((splitOnChar ',' s.data).map trimChars).map String.mk).filter
      (fun p => !p.isEmpty)
    if v.isEmpty then Except.error "Invalid AllowOrigin::Whitelist value"
    else Except.ok (AllowOrigin.Whitelist v)

/-- The structured wire shapes of `AllowOrigin`: a bare string or a list of
host strings (the two shapes `Serialize`/`Deserialize` in cors.rs lines 12-66
exchange). -/
inductive CorsJson where
  | str (s : String)
  | list (hosts : List String)
  deriving DecidableEq

/-- Embeds `Serialize for AllowOrigin` (cors.rs lines 12-28): `Any` → the
literal `"*"`; a one-host whitelist → that bare string; any other length →
the list of strings. -/
def AllowOrigin.serialize : AllowOrigin → CorsJson
  | AllowOrigin.Any => CorsJson.str "*"
  | AllowOrigin.Whitelist hosts =>
      match hosts with
      | [h] => CorsJson.str h
      | _ => CorsJson.list hosts

/-- Embeds `Deserialize for AllowOrigin` (cors.rs lines 30-66): `visit_str`
maps `"*"` to `Any` and any other string to a singleton whitelist;
`visit_seq` maps a list of hosts to a whitelist. -/
def AllowOrigin.deserialize : CorsJson → AllowOrigin
  | CorsJson.str s => if s = "*" then AllowOrigin.Any else AllowOrigin.Whitelist [s]
  | CorsJson.list hosts => AllowOrigin.Whitelist hosts

/-! ### API manager (manager.rs) -/

/-- Trace of one `with_retries` run (manager.rs lines 122-146): the returned
result, how many times the action was invoked, and the sleep performed after
each failed invocation (every entry is the fixed `retry_timeout`). -/
structure RetryTrace (T : Type) where
  result : Except String T
  invocations : Nat
  delays : List Nat
  deriving DecidableEq

/-- The `for attempt in 1..=attempts` loop of `with_retries`: `attempt` is
the 1-based number of the next invocation, `remaining` how many loop
iterations are left.  The action is modelled as a function of the invocation
number (the Rust closure is `FnMut`, so successive calls may differ). -/
def with_retries_go {T : Type} (action : Nat → Except String T) (timeout : Nat)
    (failMsg : String) (attempt : Nat) : Nat → RetryTrace T
  | 0 => { result := Except.error failMsg, invocations := 0, delays := [] }
  | remaining + 1 =>
      match action attempt with
      | Except.ok value =>
          { result := Except.ok value, invocations := 1, delays := [] }
      | Except.error _ =>
          let rest := with_retries_go action timeout failMsg (attempt + 1) remaining
          { result := rest.result, invocations := rest.invocations + 1,
            delays := timeout :: rest.delays }

/-- Embeds `with_retries` (manager.rs lines 122-146): up to `attempts`
invocations, a fixed `timeout` sleep after each failure, and the
`Cannot complete .. after .. attempts` error once the loop ends without a
success. -/
def with_retries {T : Type} (action : Nat → Except String T)
    (description : String) (attempts : Nat) (timeout : Nat) : RetryTrace T :=
  with_retries_go action timeout
    ("Cannot complete " ++ description ++ " after " ++ toString attempts
      ++ " attempts")
    1 attempts

/-- The manager state that `start_servers` touches: the stored server-handle
set (handles abstracted to ids). -/
structure ApiManagerState where
  servers : List Nat
  deriving DecidableEq

/-- Embeds `futures::future::try_join_all` as `start_servers` uses it: all
results, or an error when any constituent failed. -/
def try_join_all {E A : Type} : List (Except E A) → Except E (List A)
  | [] => Except.ok []
  | x :: rest =>
      match x with
      | Except.error e => Except.error e
      | Except.ok a => (try_join_all rest).map fun l => a :: l

/-- Embeds `ApiManager::start_servers` (manager.rs lines 175-235) at the
bind-outcome level: `bindResults` lists, per configured access level, the
`with_retries` outcome of that level's bind step.  `try_join_all(..).await?`
returns the error before `self.servers` is assigned, so on failure the stored
handle set is unchanged; only when every bind succeeded is it replaced by the
new generation's handles. -/
def start_servers (st : ApiManagerState)
    (bindResults : List (Except String Nat)) :
    Except String Unit × ApiManagerState :=
  match try_join_all bindResults with
  | Except.error e => (Except.error e, st)
  | Except.ok handles => (Except.ok (), { st with servers := handles })

/-- The state of the `run_inner` control loop (manager.rs lines 253-280):
`gen` identifies the current completion channel (`server_finished_channel`),
replaced by a brand-new one on every update; `endpoints` is the stored
endpoint set. -/
structure RunState where
  gen : Nat
  endpoints : List String
  deriving DecidableEq

/-- One event the `futures::select!` of `run_inner` can observe.  A
`terminal chan res` is a listener's terminal outcome sent on completion
channel `chan` — the channel whose sender `start_servers` cloned into the
listener when its generation started.  The loop's receiver belongs to the
current channel only, so a message on any other channel is never received. -/
inductive RunEvent where
  | update (endpoints : List String)
  | terminal (chan : Nat) (res : Except String Unit)
  | closed

/-- Where the control loop stands after consuming a finite event trace. -/
inductive RunOutcome where
  | returned (res : Except String Unit)
  | running (st : RunState)

/-- Embeds `ApiManager::run_inner` (manager.rs lines 253-280) as a step
function over an event trace.  `start g eps` is the outcome of
`start_servers` for generation `g` with endpoint set `eps` (its `?`
propagates an error out of the loop).  On an update the source first replaces
`server_finished_channel` with a brand-new channel (here: `gen + 1`), then
stops the current generation's listeners, replaces `self.endpoints`, and
starts the next generation on the new channel; a terminal outcome on a
non-current channel is never received because that channel's receiver was
discarded. -/
def run_inner (start : Nat → List String → Except String Unit) :
    RunState → List RunEvent → RunOutcome
  | st, [] => RunOutcome.running st
  | st, ev :: rest =>
      match ev with
      | RunEvent.terminal chan res =>
          if chan = st.gen then RunOutcome.returned res
          else run_inner start st rest
      | RunEvent.closed => RunOutcome.returned (Except.ok ())
      | RunEvent.update eps =>
          match start (st.gen + 1) eps with
          | Except.error e => RunOutcome.returned (Except.error e)
          | Except.ok () =>
              run_inner start { gen := st.gen + 1, endpoints := eps } rest

/-! ## Helper lemmas -/

theorem renderObj_ne_empty (fields : List (String × JsonField)) :
    renderObj fields ≠ "" := by
  intro h
  have h2 := congrArg String.data h
  simp [renderObj, String.data_append] at h2

theorem toJson_eq_nil_iff (b : ErrorBody) :
    b.toJson = [] ↔ b.isEmptyAll := by
  unfold ErrorBody.toJson ErrorBody.isEmptyAll
  by_cases h1 : b.docs_uri = "" <;> by_cases h2 : b.title = "" <;>
    by_cases h3 : b.detail = "" <;> by_cases h4 : b.source = "" <;>
    cases hec : b.error_code <;> simp [h1, h2, h3, h4, hec]

theorem decodeErrorBody_toJson (b : ErrorBody) :
    decodeErrorBody b.toJson = Except.ok b := by
  rcases b with ⟨du, ti, de, so, ec⟩
  by_cases h1 : du = "" <;> by_cases h2 : ti = "" <;> by_cases h3 : de = "" <;>
    by_cases h4 : so = "" <;> cases ec <;>
    simp_all [decodeErrorBody, ErrorBody.toJson, getStrField, getNumField,
      lookupField, bind, Except.bind]

/-! ## Claims -/

/-- C1 counterexample: at a deprecated endpoint with no date and no
description the code attaches the Warning header whose message begins
`Deprecated API: This endpoint is deprecated, see the service documentation
to find an alternative.`, which is not the message the claim states
(`Deprecated API: this endpoint is deprecated, see documentation for an
alternative.`). -/
theorem C1_warning_counterexample :
    (json_response (Actuality.Deprecated none none) "null").headers.head? =
      some ("Warning",
        "299 - \"Deprecated API: This endpoint is deprecated, see the service documentation to find an alternative. Currently there is no specific date for disabling this endpoint.\"") ∧
    "299 - \"Deprecated API: This endpoint is deprecated, see the service documentation to find an alternative. Currently there is no specific date for disabling this endpoint.\""
      ≠ "299 - \"Deprecated API: this endpoint is deprecated, see documentation for an alternative. Currently there is no specific date for disabling this endpoint.\"" := by
  exact ⟨by decide, by decide⟩

/-- C1 (amended): every successful response of a deprecated endpoint carries
a `Warning` header of the form `299 - "<message>"` whose message is exactly
`Deprecated API: This endpoint is deprecated, see the service documentation
to find an alternative.` followed by `The old API is maintained until
<formatted date>.` when a discontinuation date is set, or by `Currently there
is no specific date for disabling this endpoint.` when it is not, and ending
with `Additional information: <description>.` when a description is present;
an `Actual` endpoint attaches no `Warning` header. -/
theorem C1_deprecation_warning (d desc : Option String) (v : String) :
    (json_response Actuality.Actual v).headers.lookup "Warning" = none ∧
    (json_response (Actuality.Deprecated d desc) v).headers.lookup "Warning" =
      some ("299 - \""
        ++ ("Deprecated API: This endpoint is deprecated, see the service documentation to find an alternative. "
          ++ (match d with
              | some date => "The old API is maintained until " ++ date ++ "."
              | none => "Currently there is no specific date for disabling this endpoint.")
          ++ (match desc with
              | some ds => " Additional information: " ++ ds ++ "."
              | none => ""))
        ++ "\"") ∧
    (json_response (Actuality.Deprecated d desc) v).status = 200 ∧
    (json_response Actuality.Actual v).status = 200 := by
  refine ⟨by simp [json_response, List.lookup], ?_, rfl, rfl⟩
  cases d <;> cases desc <;>
    simp [json_response, List.lookup, create_warning_header,
      deprecation_warning_text, expiration_note] <;>
    (apply String.ext
     simp [String.data_append])

/-- C2: the text parser of `AllowOrigin` maps `"*"` to `Any`; any other
input is split on `,`, each piece trimmed, empty pieces dropped, the result
returned as a whitelist, and an empty remaining list is a parse error; in
particular `"a.com, b.com"` parses to `Whitelist ["a.com", "b.com"]` and
`""` and `" , "` fail. -/
theorem C2_from_str_spec (s : String) (h : s ≠ "*") :
    AllowOrigin.from_str "*" = Except.ok AllowOrigin.Any ∧
    AllowOrigin.from_str "a.com, b.com"
      = Except.ok (AllowOrigin.Whitelist ["a.com", "b.com"]) ∧
    AllowOrigin.from_str "" = Except.error "Invalid AllowOrigin::Whitelist value" ∧
    AllowOrigin.from_str " , " = Except.error "Invalid AllowOrigin::Whitelist value" ∧
    (let pieces := (((splitOnChar ',' s.data).map trimChars).map String.mk).filter
        (fun p => !p.isEmpty)
     if pieces.isEmpty then
       AllowOrigin.from_str s = Except.error "Invalid AllowOrigin::Whitelist value"
     else AllowOrigin.from_str s = Except.ok (AllowOrigin.Whitelist pieces)) := by
  refine ⟨by decide, by decide, by decide, by decide, ?_⟩
  simp only [AllowOrigin.from_str, if_neg h]
  split <;> simp_all

/-- C2 witness: the general part of `C2_from_str_spec` applied at the
concrete input `"a.com"`. -/
theorem C2_from_str_spec_witness :
    AllowOrigin.from_str "*" = Except.ok AllowOrigin.Any ∧
    AllowOrigin.from_str "a.com, b.com"
      = Except.ok (AllowOrigin.Whitelist ["a.com", "b.com"]) ∧
    AllowOrigin.from_str "" = Except.error "Invalid AllowOrigin::Whitelist value" ∧
    AllowOrigin.from_str " , " = Except.error "Invalid AllowOrigin::Whitelist value" ∧
    (let pieces := (((splitOnChar ',' ("a.com" : String).data).map trimChars).map
        String.mk).filter (fun p => !p.isEmpty)
     if pieces.isEmpty then
       AllowOrigin.from_str "a.com" = Except.error "Invalid AllowOrigin::Whitelist value"
     else AllowOrigin.from_str "a.com" = Except.ok (AllowOrigin.Whitelist pieces)) :=
  C2_from_str_spec "a.com" (by decide)

/-- C3 counterexample: the whitelist of exactly the single host `"*"`
serializes to the bare string `"*"`, which deserializes to `Any`, so the
round trip does not return the original value. -/
theorem C3_roundtrip_counterexample :
    AllowOrigin.serialize (AllowOrigin.Whitelist ["*"]) = CorsJson.str "*" ∧
    AllowOrigin.deserialize (AllowOrigin.serialize (AllowOrigin.Whitelist ["*"]))
      = AllowOrigin.Any ∧
    AllowOrigin.Any ≠ AllowOrigin.Whitelist ["*"] := by
  exact ⟨rfl, by decide, by decide⟩

/-- C3 (amended): structured (de)serialization of `AllowOrigin` is
duck-typed — `Any` serializes to the literal string `"*"`, a one-host
whitelist to that bare string, any other length to a list of strings, and
deserialization accepts both a bare string and a list — and round-trips for
every value except the whitelist of exactly the single host `"*"` (which
comes back as `Any`). -/
theorem C3_duck_typed_roundtrip (v : AllowOrigin)
    (h : v ≠ AllowOrigin.Whitelist ["*"]) :
    AllowOrigin.serialize AllowOrigin.Any = CorsJson.str "*" ∧
    AllowOrigin.serialize (AllowOrigin.Whitelist ["a.com"]) = CorsJson.str "a.com" ∧
    AllowOrigin.serialize (AllowOrigin.Whitelist ["a.com", "b.com"])
      = CorsJson.list ["a.com", "b.com"] ∧
    (∀ s, s ≠ "*" →
      AllowOrigin.deserialize (CorsJson.str s) = AllowOrigin.Whitelist [s]) ∧
    (∀ hosts, AllowOrigin.deserialize (CorsJson.list hosts)
      = AllowOrigin.Whitelist hosts) ∧
    AllowOrigin.deserialize (AllowOrigin.serialize v) = v := by
  refine ⟨rfl, rfl, rfl, ?_, fun hosts => rfl, ?_⟩
  · intro s hs
    simp [AllowOrigin.deserialize, hs]
  · cases v with
    | Any => rfl
    | Whitelist hosts =>
      cases hosts with
      | nil => rfl
      | cons h1 t =>
        cases t with
        | nil =>
          have hne : h1 ≠ "*" := by
            intro e
            exact h (by rw [e])
          simp [AllowOrigin.serialize, AllowOrigin.deserialize, hne]
        | cons h2 t2 => rfl

/-- C3 witness: the round trip of `C3_duck_typed_roundtrip` at the concrete
value `Whitelist ["a.com"]`. -/
theorem C3_duck_typed_roundtrip_witness :
    AllowOrigin.deserialize (AllowOrigin.serialize (AllowOrigin.Whitelist ["a.com"]))
      = AllowOrigin.Whitelist ["a.com"] :=
  (C3_duck_typed_roundtrip (AllowOrigin.Whitelist ["a.com"]) (by decide)).2.2.2.2.2

/-- C4: the wire response of an `Error` has a zero-length body exactly when
every body field is empty or absent; when any field is non-empty the body is
the full JSON serialization of the `ErrorBody` (empty fields omitted) and the
response carries `Content-Type: application/problem+json`; the status equals
the error's `http_code` and the error's extra headers are attached. -/
theorem C4_error_response (e : Error) :
    ((Error.error_response e).body = "" ↔ e.body.isEmptyAll) ∧
    (¬ e.body.isEmptyAll →
      (Error.error_response e).body = renderObj e.body.toJson ∧
      ("Content-Type", "application/problem+json")
        ∈ (Error.error_response e).headers) ∧
    (Error.error_response e).status = e.http_code ∧
    (Error.error_response e).headers
      = ("Content-Type", "application/problem+json") :: e.headers := by
  by_cases ht : e.body.toJson = []
  · have hemp := (toJson_eq_nil_iff e.body).mp ht
    simp [Error.error_response, ht, hemp]
  · have hemp : ¬ e.body.isEmptyAll := fun h => ht ((toJson_eq_nil_iff e.body).mpr h)
    simp [Error.error_response, ht, hemp, renderObj_ne_empty]

/-- C4 witness: `C4_error_response` at the concrete error
`bad_request.title "Bad request"`, whose non-empty title forces the full JSON
body. -/
theorem C4_error_response_witness :
    (Error.error_response (Error.bad_request.title "Bad request")).body
      = renderObj (Error.bad_request.title "Bad request").body.toJson ∧
    ("Content-Type", "application/problem+json")
      ∈ (Error.error_response (Error.bad_request.title "Bad request")).headers :=
  (C4_error_response (Error.bad_request.title "Bad request")).2.1 (by decide)

/-- C9: `Error::parse` is symmetric to serialization — parsing the wire body
an `Error` produces (the JSON serialization of its body, or the empty body
when every field is empty) at the error's own status succeeds and
reconstructs an error with the same `http_code` and the same body fields. -/
theorem C9_parse_roundtrip (e : Error) :
    ∃ e2 : Error, Error.parse e.http_code e.wire_body = Except.ok e2 ∧
      e2.http_code = e.http_code ∧ e2.body = e.body := by
  rcases e with ⟨c, b, hs⟩
  by_cases ht : b.toJson = []
  · have hemp := (toJson_eq_nil_iff b).mp ht
    rcases b with ⟨du, ti, de, so, ec⟩
    obtain ⟨h1, h2, h3, h4, h5⟩ := hemp
    subst h1 h2 h3 h4 h5
    exact ⟨{ http_code := c, body := {}, headers := [] },
      by simp [Error.parse, Error.wire_body, ht], rfl, rfl⟩
  · refine ⟨{ http_code := c, body := b, headers := [] }, ?_, rfl, rfl⟩
    simp [Error.parse, Error.wire_body, ht, decodeErrorBody_toJson b, Except.map]

/-- C5: input extraction depends only on the endpoint's mutability — an
`Immutable` endpoint parses the query string and on failure dispatch returns
status 400 with body title `Query parse error` and detail the parser's
message; a `Mutable` endpoint parses the JSON body and on failure dispatch
returns status 400 with body title `JSON body parse error` and detail the
parser's message; in both failure cases the handler is never invoked (the
response does not depend on it). -/
theorem C5_extraction_policy {Q : Type} (msg : String)
    (other : Except String Q) (handler handler2 : Q → Except Error String)
    (act : Actuality) :
    dispatch EndpointMutability.Immutable act (Except.error msg) other handler
      = ((Error.bad_request.title "Query parse error").detail msg).error_response ∧
    (dispatch EndpointMutability.Immutable act (Except.error msg) other handler).status
      = HttpStatusCode.BAD_REQUEST ∧
    ((Error.bad_request.title "Query parse error").detail msg).body.title
      = "Query parse error" ∧
    ((Error.bad_request.title "Query parse error").detail msg).body.detail = msg ∧
    dispatch EndpointMutability.Immutable act (Except.error msg) other handler
      = dispatch EndpointMutability.Immutable act (Except.error msg) other handler2 ∧
    dispatch EndpointMutability.Mutable act other (Except.error msg) handler
      = ((Error.bad_request.title "JSON body parse error").detail msg).error_response ∧
    (dispatch EndpointMutability.Mutable act other (Except.error msg) handler).status
      = HttpStatusCode.BAD_REQUEST ∧
    ((Error.bad_request.title "JSON body parse error").detail msg).body.title
      = "JSON body parse error" ∧
    ((Error.bad_request.title "JSON body parse error").detail msg).body.detail = msg ∧
    dispatch EndpointMutability.Mutable act other (Except.error msg) handler
      = dispatch EndpointMutability.Mutable act other (Except.error msg) handler2 :=
  ⟨rfl, rfl, rfl, rfl, rfl, rfl, rfl, rfl, rfl, rfl⟩

/-- C10: the process-wide catch-all handlers replace a response only when its
existing body is empty (size zero or none) or of unknown/streamed size; a
response that already carries a non-empty sized body passes through
unchanged; the installed mappings are 404 → title `Method not found` with a
detail naming the requested path, and 400 → title `Bad request`. -/
theorem C10_catch_all (res : ServiceResponse) (handler : ServiceResponse → Error) :
    ((res.bodySize = BodySize.none ∨ res.bodySize = BodySize.sized 0 ∨
        res.bodySize = BodySize.stream) →
      default_api_error handler res
        = HandledResponse.replaced (handler res).error_response) ∧
    (∀ n, res.bodySize = BodySize.sized (n + 1) →
      default_api_error handler res = HandledResponse.passthrough res) ∧
    error_handlers HttpStatusCode.NOT_FOUND = some not_found_handler ∧
    error_handlers HttpStatusCode.BAD_REQUEST = some bad_request_handler ∧
    (not_found_handler res).http_code = HttpStatusCode.NOT_FOUND ∧
    (not_found_handler res).body.title = "Method not found" ∧
    (not_found_handler res).body.detail
      = "API endpoint `" ++ res.path ++ "` doesn't exist" ∧
    (bad_request_handler res).http_code = HttpStatusCode.BAD_REQUEST ∧
    (bad_request_handler res).body.title = "Bad request" := by
  refine ⟨?_, ?_, rfl, rfl, rfl, rfl, rfl, rfl, rfl⟩
  · rintro (h1 | h1 | h1) <;> simp [default_api_error, h1]
  · intro n h1
    simp [default_api_error, h1]

/-- C10 witness: a 404 response already carrying a 5-byte body passes through
unchanged, and a 400 response with an empty body is replaced. -/
theorem C10_catch_all_witness :
    default_api_error not_found_handler
        { status := 404, bodySize := BodySize.sized 5, path := "/x" }
      = HandledResponse.passthrough
        { status := 404, bodySize := BodySize.sized 5, path := "/x" } ∧
    default_api_error bad_request_handler
        { status := 400, bodySize := BodySize.sized 0, path := "/y" }
      = HandledResponse.replaced
        (bad_request_handler
          { status := 400, bodySize := BodySize.sized 0, path := "/y" }).error_response :=
  ⟨(C10_catch_all _ not_found_handler).2.1 4 rfl,
   (C10_catch_all _ bad_request_handler).1 (Or.inr (Or.inl rfl))⟩

theorem with_retries_go_succ {T : Type} (action : Nat → Except String T)
    (timeout : Nat) (failMsg : String) (v : T) :
    ∀ (k r a : Nat), k < r →
      (∀ i, a ≤ i → i < a + k → ∃ m, action i = Except.error m) →
      action (a + k) = Except.ok v →
      with_retries_go action timeout failMsg a r =
        { result := Except.ok v, invocations := k + 1,
          delays := List.replicate k timeout } := by
  intro k
  induction k with
  | zero =>
    intro r a hr _ hsucc
    match r, hr with
    | r + 1, _ =>
      simp only [Nat.add_zero] at hsucc
      simp [with_retries_go, hsucc]
  | succ k ih =>
    intro r a hr hfail hsucc
    match r, hr with
    | r + 1, hr =>
      obtain ⟨m, hm⟩ := hfail a (Nat.le_refl a) (by omega)
      have ihr := ih r (a + 1) (by omega)
        (fun i h1 h2 => hfail i (by omega) (by omega))
        (by rw [show a + 1 + k = a + (k + 1) from by omega]; exact hsucc)
      simp [with_retries_go, hm, ihr, List.replicate_succ]

theorem with_retries_go_allfail {T : Type} (action : Nat → Except String T)
    (timeout : Nat) (failMsg : String) :
    ∀ (r a : Nat),
      (∀ i, a ≤ i → i < a + r → ∃ m, action i = Except.error m) →
      with_retries_go action timeout failMsg a r =
        { result := Except.error failMsg, invocations := r,
          delays := List.replicate r timeout } := by
  intro r
  induction r with
  | zero => intro a _; simp [with_retries_go]
  | succ r ih =>
    intro a hfail
    obtain ⟨m, hm⟩ := hfail a (Nat.le_refl a) (by omega)
    have ihr := ih (a + 1) (fun i h1 h2 => hfail i (by omega) (by omega))
    simp [with_retries_go, hm, ihr, List.replicate_succ]

theorem with_retries_go_inv_le {T : Type} (action : Nat → Except String T)
    (timeout : Nat) (failMsg : String) :
    ∀ (r a : Nat), (with_retries_go action timeout failMsg a r).invocations ≤ r := by
  intro r
  induction r with
  | zero => intro a; simp [with_retries_go]
  | succ r ih =>
    intro a
    unfold with_retries_go
    cases action a <;> simp
    exact ih (a + 1)

/-- C6: the retry helper, run with `attempts = max_retries` and fixed delay
`timeout = retry_timeout`, returns the first success after exactly `K + 1`
invocations with a fixed `timeout` delay after each of the `K` failures when
the action fails on its first `K < max_retries` invocations and then
succeeds; invokes an always-failing action exactly `max_retries` times before
returning the `Cannot complete ..` error (again with fixed delays); and never
invokes any action more than `max_retries` times. -/
theorem C6_with_retries {T : Type} (action : Nat → Except String T)
    (description : String) (attempts timeout K : Nat) (v : T)
    (hK : K < attempts)
    (hfail : ∀ i, 1 ≤ i → i ≤ K → ∃ m, action i = Except.error m)
    (hsucc : action (K + 1) = Except.ok v) :
    with_retries action description attempts timeout =
      { result := Except.ok v, invocations := K + 1,
        delays := List.replicate K timeout } ∧
    (∀ action2 : Nat → Except String T,
      (∀ i, 1 ≤ i → i ≤ attempts → ∃ m, action2 i = Except.error m) →
      with_retries action2 description attempts timeout =
        { result := Except.error ("Cannot complete " ++ description ++ " after "
            ++ toString attempts ++ " attempts"),
          invocations := attempts,
          delays := List.replicate attempts timeout }) ∧
    (∀ action3 : Nat → Except String T,
      (with_retries action3 description attempts timeout).invocations ≤ attempts) := by
  refine ⟨?_, ?_, ?_⟩
  · exact with_retries_go_succ action timeout _ v K attempts 1 hK
      (fun i h1 h2 => hfail i h1 (by omega))
      (by rw [show 1 + K = K + 1 from by omega]; exact hsucc)
  · intro action2 hall
    exact with_retries_go_allfail action2 timeout _ attempts 1
      (fun i h1 h2 => hall i h1 (by omega))
  · intro action3
    exact with_retries_go_inv_le action3 timeout _ attempts 1

/-- C6 witness: an action failing on its first 2 invocations and succeeding
on the third, under 5 allowed attempts, returns the success after exactly 3
invocations with two fixed 100 ms delays. -/
theorem C6_with_retries_witness :
    with_retries (fun i => if i ≤ 2 then Except.error "bind failed" else Except.ok 7)
        "starting public api" 5 100 =
      { result := Except.ok 7, invocations := 2 + 1,
        delays := List.replicate 2 100 } :=
  (C6_with_retries (fun i => if i ≤ 2 then Except.error "bind failed" else Except.ok 7)
    "starting public api" 5 100 2 7 (by omega)
    (fun i h1 h2 => ⟨"bind failed", by interval_cases i <;> rfl⟩)
    rfl).1

theorem try_join_all_error {E A : Type} (l : List (Except E A)) :
    (∃ m, Except.error m ∈ l) →
    ∃ m, try_join_all l = Except.error m ∧ Except.error (α := A) m ∈ l := by
  induction l with
  | nil => rintro ⟨m, hm⟩; cases hm
  | cons x rest ih =>
    rintro ⟨m, hm⟩
    cases x with
    | error e => exact ⟨e, rfl, List.mem_cons_self _ _⟩
    | ok a =>
      have hrest : Except.error (α := A) m ∈ rest := by
        rcases List.mem_cons.mp hm with h | h
        · cases h
        · exact h
      obtain ⟨m2, hm2, hmem2⟩ := ih ⟨m, hrest⟩
      exact ⟨m2, by simp [try_join_all, hm2, Except.map], List.mem_cons_of_mem _ hmem2⟩

theorem try_join_all_ok {E A : Type} (l : List (Except E A)) :
    (∀ x ∈ l, ∃ a, x = Except.ok a) →
    ∃ hs, try_join_all l = Except.ok hs := by
  induction l with
  | nil => intro _; exact ⟨[], rfl⟩
  | cons x rest ih =>
    intro hall
    obtain ⟨a, ha⟩ := hall x (List.mem_cons_self _ _)
    obtain ⟨hs, hhs⟩ := ih (fun y hy => hall y (List.mem_cons_of_mem _ hy))
    exact ⟨a :: hs, by simp [ha, try_join_all, hhs, Except.map]⟩

/-- C7: starting is all-or-nothing across access levels — when any access
level's bind step ends in an error, `start_servers` returns an error that is
one of the bind errors and leaves the stored server-handle set unchanged; the
handle set is replaced with the new generation's handles only when every
access level's bind succeeded. -/
theorem C7_start_all_or_nothing (st : ApiManagerState)
    (bindResults : List (Except String Nat)) :
    ((∃ m, Except.error m ∈ bindResults) →
      (∃ m, (start_servers st bindResults).1 = Except.error m ∧
        Except.error (α := Nat) m ∈ bindResults) ∧
      (start_servers st bindResults).2.servers = st.servers) ∧
    ((∀ x ∈ bindResults, ∃ h, x = Except.ok h) →
      ∃ handles, try_join_all bindResults = Except.ok handles ∧
        start_servers st bindResults
          = (Except.ok (), { st with servers := handles })) := by
  constructor
  · intro hex
    obtain ⟨m, hm, hmem⟩ := try_join_all_error bindResults hex
    exact ⟨⟨m, by simp [start_servers, hm], hmem⟩, by simp [start_servers, hm]⟩
  · intro hall
    obtain ⟨hs, hok⟩ := try_join_all_ok bindResults hall
    exact ⟨hs, hok, by simp [start_servers, hok]⟩

/-- C7 witness: with one successful and one exhausted bind, `start_servers`
returns the bind error and the stored handle set `[7]` is unchanged. -/
theorem C7_start_all_or_nothing_witness :
    (∃ m, (start_servers { servers := [7] } [Except.ok 1, Except.error "busy"]).1
        = Except.error m ∧
      Except.error (α := Nat) m ∈ [Except.ok 1, Except.error "busy"]) ∧
    (start_servers { servers := [7] } [Except.ok 1, Except.error "busy"]).2.servers
      = [7] :=
  (C7_start_all_or_nothing { servers := [7] } [Except.ok 1, Except.error "busy"]).1
    ⟨"busy", by simp⟩

/-- C8: generation isolation of the control loop — processing an update moves
the loop to a state with a brand-new completion channel (generation `gen + 1`)
and the update's endpoint set before any further event is consumed; a
terminal outcome sent on any other generation's channel (in particular the
stopped, draining generation's) is never received, so an old generation's
planned stop is never reported as an outcome of the new generation; and an
error outcome arriving on the current generation's channel makes the run loop
return that error. -/
theorem C8_generation_isolation
    (start : Nat → List String → Except String Unit) (st : RunState)
    (eps : List String) (rest : List RunEvent) (g : Nat)
    (r : Except String Unit) (m : String)
    (hg : g ≠ st.gen + 1)
    (hstart : start (st.gen + 1) eps = Except.ok ()) :
    run_inner start st (RunEvent.update eps :: rest) =
      run_inner start { gen := st.gen + 1, endpoints := eps } rest ∧
    run_inner start st (RunEvent.update eps :: RunEvent.terminal g r :: rest) =
      run_inner start { gen := st.gen + 1, endpoints := eps } rest ∧
    run_inner start { gen := st.gen + 1, endpoints := eps }
        (RunEvent.terminal (st.gen + 1) (Except.error m) :: rest) =
      RunOutcome.returned (Except.error m) := by
  refine ⟨?_, ?_, ?_⟩
  · simp [run_inner, hstart]
  · simp [run_inner, hstart, hg]
  · simp [run_inner]

/-- C8 witness: after an update from generation 0, the old generation's
planned-stop outcome (sent on channel 0) is skipped, and an error on the new
channel 1 is returned. -/
theorem C8_generation_isolation_witness :
    run_inner (fun _ _ => Except.ok ()) { gen := 0, endpoints := [] }
        [RunEvent.update ["svc"]] =
      run_inner (fun _ _ => Except.ok ()) { gen := 0 + 1, endpoints := ["svc"] } [] ∧
    run_inner (fun _ _ => Except.ok ()) { gen := 0, endpoints := [] }
        [RunEvent.update ["svc"], RunEvent.terminal 0 (Except.ok ())] =
      run_inner (fun _ _ => Except.ok ()) { gen := 0 + 1, endpoints := ["svc"] } [] ∧
    run_inner (fun _ _ => Except.ok ()) { gen := 0 + 1, endpoints := ["svc"] }
        [RunEvent.terminal (0 + 1) (Except.error "listener crashed")] =
      RunOutcome.returned (Except.error "listener crashed") :=
  C8_generation_isolation (fun _ _ => Except.ok ()) { gen := 0, endpoints := [] }
    ["svc"] [] 0 (Except.ok ()) "listener crashed" (by omega) rfl

end Nanobloc
